import Mathlib

/-!
Verification of the IITK Course Planner schedule utilities.

Shallow embedding of the schedule parsing, conflict detection and
time-range logic of `src/App.tsx` and `src/utils/scheduleParser.ts`.
Strings are modelled as `List Char`; JavaScript exceptions (the parser
throws when a time range has no `-` separator, because
`timeToMinutes(undefined)` dereferences `undefined`) are modelled with
`Option`, `none` standing for a thrown exception.
-/

/-- Strings are modelled as lists of characters. -/
abbrev Str := List Char

/-- Coerce a Lean string literal into the `List Char` model. -/
def S (s : String) : Str := s.data

/-- The whitespace characters recognised by JavaScript `trim` and the
regular expression class `\s`: tab, LF, VT, FF, CR, space, NBSP, BOM,
and the Unicode space separators. -/
def jsWhitespace (c : Char) : Bool :=
  c = ' ' ∨ c = '\t' ∨ c = '\n' ∨ c = '\x0b' ∨ c = '\x0c' ∨ c = '\r' ∨
  c = Char.ofNat 0xA0 ∨ c = Char.ofNat 0xFEFF ∨ c = Char.ofNat 0x1680 ∨
  (0x2000 ≤ c.toNat ∧ c.toNat ≤ 0x200A) ∨
  c = Char.ofNat 0x2028 ∨ c = Char.ofNat 0x2029 ∨
  c = Char.ofNat 0x202F ∨ c = Char.ofNat 0x205F ∨ c = Char.ofNat 0x3000

/-- JavaScript `String.prototype.trim`: drop leading and trailing whitespace. -/
def trim (s : Str) : Str :=
  ((s.dropWhile jsWhitespace).reverse.dropWhile jsWhitespace).reverse

/-- JavaScript `String.prototype.split` with a single-character separator:
always returns a non-empty list of (possibly empty) segments. -/
def splitOnChar (sep : Char) : Str → List Str
  | [] => [[]]
  | c :: rest =>
    if c = sep then [] :: splitOnChar sep rest
    else
      match splitOnChar sep rest with
      | r :: rs => (c :: r) :: rs
      | [] => [[c]]

/-- Model of `segment.split(/\s+/).filter(p => p)`: the maximal runs of
non-whitespace characters, in order.  The accumulator holds the current
run reversed. -/
def splitWsAux : Str → Str → List Str
  | [], acc => if acc = [] then [] else [acc.reverse]
  | c :: rest, acc =>
    if jsWhitespace c then
      if acc = [] then splitWsAux rest []
      else acc.reverse :: splitWsAux rest []
    else splitWsAux rest (c :: acc)

def splitWs (s : Str) : List Str := splitWsAux s []

/-- The decimal value of a non-empty all-digit string, `none` otherwise. -/
def digitsToNat (s : Str) : Option Nat :=
  if s = [] then none
  else if s.all Char.isDigit then
    some (s.foldl (fun a c => a * 10 + (c.toNat - 48)) 0)
  else none

/-- JavaScript `Number(string)` on the integer fragment this application
produces: a whitespace-only string is `0`, an optional sign followed by
decimal digits is that integer, anything else is `NaN` (`none`). -/
def jsNumber (s : Str) : Option Int :=
  let t := trim s
  if t = [] then some 0
  else
    match t with
    | '+' :: ds => (digitsToNat ds).map Int.ofNat
    | '-' :: ds => (digitsToNat ds).map fun n => -(Int.ofNat n)
    | ds => (digitsToNat ds).map Int.ofNat

/-- Function `timeToMinutes` from `scheduleParser.ts` / `App.tsx`:
`time.split(':')` is mapped through `Number`; if either of the first two
components is missing or `NaN` the function returns `0`, otherwise
`hours * 60 + minutes`. -/
def timeToMinutes (time : Str) : Int :=
  match (splitOnChar ':' time).map jsNumber with
  | some hours :: some minutes :: _ => hours * 60 + minutes
  | _ => 0

/-- Decimal digit string of a natural number. -/
def natToStr (n : Nat) : Str := Nat.toDigits 10 n

/-- JavaScript `Number.prototype.toString` restricted to integers. -/
def intToStr (n : Int) : Str :=
  if n < 0 then '-' :: natToStr (-n).toNat else natToStr n.toNat

/-- JavaScript `padStart(2, '0')`. -/
def padStart2 (s : Str) : Str :=
  if s.length < 2 then List.replicate (2 - s.length) '0' ++ s else s

/-- Function `formatTime` from `App.tsx`: `Math.floor(minutes / 60)` is floor
division, the JavaScript `%` is the truncated remainder; both components
are zero-padded to two digits and joined with `:`. -/
def formatTime (minutes : Int) : Str :=
  let hours := minutes.fdiv 60
  let mins := minutes.tmod 60
  padStart2 (intToStr hours) ++ ':' :: padStart2 (intToStr mins)

-- --- Data model (the `Course` and `TimeSlot` interfaces of `App.tsx`) ---

structure Course where
  branch : Str
  course_name : Str
  course_code : Str
  slot : Str
  credits : Int
  course_type : Str
  instructor : Str
  instructor_email : Str
  lecture_schedule : Str
  tutorial_schedule : Str
  practical_schedule : Str
deriving DecidableEq, Repr

/-- The `TimeSlot` interface.  The source stores `duration` in hours
(`(endMinutes - startMinutes) / 60`, a float); the model stores the
minute difference, which has the same sign and is the only aspect the
logic inspects (`duration <= 0`) or scales for display. -/
structure TimeSlot where
  day : Str
  start : Str
  «end» : Str
  startMinutes : Int
  endMinutes : Int
  durationMinutes : Int
  type : Option Str
deriving DecidableEq, Repr

/-- The `DayTimeFilter` interface of `App.tsx`. -/
structure DayTimeFilter where
  id : Int
  day : Str
  start : Int
  «end» : Int
deriving DecidableEq, Repr

-- --- Schedule parsing (`App.tsx` section 2) ---

/-- The `DAY_MAP` record of `App.tsx`: keys are the one- or two-letter
day codes, values the three-letter day names used everywhere else. -/
def DAY_MAP (code : Str) : Option Str :=
  if code = S ("M") then some (S ("Mon"))
  else if code = S ("T") then some (S ("Tue"))
  else if code = S ("W") then some (S ("Wed"))
  else if code = S ("Th") then some (S ("Thu"))
  else if code = S ("F") then some (S ("Fri"))
  else if code = S ("S") then some (S ("Sat"))
  else none

/-- Function `parseDays` of `App.tsx`: scan the day token left to right; `Th` is
matched greedily, a single character that is a `DAY_MAP` key is taken as
a one-letter code, and any other character is skipped (`i += 1` without
pushing). -/
def parseDays : Str → List Str
  | [] => []
  | 'T' :: 'h' :: rest => S ("Th") :: parseDays rest
  | c :: rest =>
    if (DAY_MAP [c]).isSome then [c] :: parseDays rest
    else parseDays rest

/-- Function `parseTimeRange` of `App.tsx`: split on `-` and trim; when there is
no `-` the destructured `end` is `undefined`, modelled as `none`. -/
def parseTimeRange (timeRange : Str) : Str × Option Str :=
  match (splitOnChar '-' timeRange).map trim with
  | start :: en :: _ => (start, some en)
  | [start] => (start, none)
  | [] => ([], none)

/-- One iteration of the segment loop of `parseSchedule` in `App.tsx`.
A segment with fewer than two whitespace-separated parts is skipped
(`continue`); a time range without `-` makes the source call
`timeToMinutes(undefined)`, which throws (`none`); a non-positive
duration is skipped; otherwise one slot is emitted per parsed day code,
the day name falling back to the code itself when it is not a `DAY_MAP`
key. -/
def parseSegment (segment : Str) : Option (List TimeSlot) :=
  match splitWs segment with
  | dayString :: timeRange :: _ =>
    let days := parseDays dayString
    match parseTimeRange timeRange with
    | (_, none) => none
    | (start, some en) =>
      let startMinutes := timeToMinutes start
      let endMinutes := timeToMinutes en
      if endMinutes - startMinutes ≤ 0 then some []
      else some (days.map fun dayCode =>
        { day := (DAY_MAP dayCode).getD dayCode
          start := start
          «end» := en
          startMinutes := startMinutes
          endMinutes := endMinutes
          durationMinutes := endMinutes - startMinutes
          type := none })
  | _ => some []

/-- Function `parseSchedule` of `App.tsx`: empty, `"nan"` and whitespace-only
strings short-circuit to `[]`; otherwise the string is split on commas,
each trimmed non-empty segment is parsed in order, and a thrown
exception (`none`) aborts the whole call. -/
def parseSchedule (scheduleString : Str) : Option (List TimeSlot) :=
  if scheduleString = [] ∨ scheduleString = S ("nan") ∨ trim scheduleString = [] then
    some []
  else
    let segments := ((splitOnChar ',' scheduleString).map trim).filter (· ≠ [])
    segments.foldlM (fun acc segment => (parseSegment segment).map (acc ++ ·)) []

/-- Tag each slot of a parsed schedule with its component type. -/
def withType (t : Str) (slots : List TimeSlot) : List TimeSlot :=
  slots.map fun s => { s with type := some t }

/-- Function `getAllTimeSlots` of `App.tsx`: parse the three schedule strings
(an empty string is falsy and skipped), tagging slots with `lecture`,
`tutorial` or `practical`. -/
def getAllTimeSlots (course : Course) : Option (List TimeSlot) := do
  let lec ← if course.lecture_schedule = [] then pure []
            else (parseSchedule course.lecture_schedule).map (withType (S ("lecture")))
  let tut ← if course.tutorial_schedule = [] then pure []
            else (parseSchedule course.tutorial_schedule).map (withType (S ("tutorial")))
  let prac ← if course.practical_schedule = [] then pure []
             else (parseSchedule course.practical_schedule).map (withType (S ("practical")))
  pure (lec ++ tut ++ prac)

-- --- Conflict detection and filters ---

/-- Function `hasConflict` of `scheduleParser.ts`: slots on different days never
conflict; on the same day the half-open intervals must strictly overlap.
(The `TimeSlot` of `scheduleParser.ts` carries an extra `courseCode`
field the test never reads, so the shared slot type is used.) -/
def hasConflict (slot1 slot2 : TimeSlot) : Bool :=
  if slot1.day ≠ slot2.day then false
  else
    decide (slot1.startMinutes < slot2.endMinutes) &&
    decide (slot2.startMinutes < slot1.endMinutes)

/-- Function `isCourseWithinDayTimeFilters` of `App.tsx`: no filters or no slots
means the course passes; otherwise it passes exactly when some slot
overlaps some filter window on the same day. -/
def isCourseWithinDayTimeFilters (course : Course) (filters : List DayTimeFilter) :
    Option Bool :=
  if filters = [] then some true
  else do
    let slots ← getAllTimeSlots course
    if slots = [] then pure true
    else pure (slots.any fun slot => filters.any fun f =>
      slot.day = f.day && decide (slot.startMinutes < f.«end») &&
        decide (slot.endMinutes > f.start))

/-- An entry of the `slotMap` in `detectConflicts`. -/
structure SlotEntry where
  course : Course
  slot : TimeSlot
deriving DecidableEq, Repr

/-- The state `detectConflicts` threads through its loops: the day-keyed
slot map and the two result sets.  JavaScript `Set`s are modelled as
duplicate-free lists in insertion order. -/
structure ConflictState where
  slotMap : List (Str × List SlotEntry)
  conflictKeys : List Str
  conflictPairs : List Str
deriving DecidableEq, Repr

/-- Model of `Set.prototype.add`: append unless already present. -/
def insertNew (l : List Str) (x : Str) : List Str :=
  if x ∈ l then l else l ++ [x]

/-- Model of `slotMap.get(day)` with a missing key giving the empty list. -/
def lookupDay (m : List (Str × List SlotEntry)) (d : Str) : List SlotEntry :=
  match m with
  | [] => []
  | (k, v) :: rest => if k = d then v else lookupDay rest d

/-- Append an entry to the day's list in the slot map, creating the key
if absent (JavaScript `Map` keeps insertion order). -/
def pushDay (m : List (Str × List SlotEntry)) (d : Str) (e : SlotEntry) :
    List (Str × List SlotEntry) :=
  match m with
  | [] => [(d, [e])]
  | (k, v) :: rest =>
    if k = d then (k, v ++ [e]) :: rest else (k, v) :: pushDay rest d e

/-- The grid-colouring key `` `${code}-${day}-${start}` ``. -/
def slotKey (code : Str) (slot : TimeSlot) : Str :=
  code ++ S ("-") ++ slot.day ++ S ("-") ++ slot.start

/-- Lexicographic `≤` on UTF-16-free character codes: the default
JavaScript string comparison used by `Array.prototype.sort`. -/
def strLt : Str → Str → Bool
  | [], [] => false
  | [], _ :: _ => true
  | _ :: _, [] => false
  | a :: as, b :: bs =>
    if a.toNat < b.toNat then true
    else if b.toNat < a.toNat then false
    else strLt as bs

/-- Model of `[codeA, codeB].sort()` for two elements: swap only when out of
order (JavaScript sort is stable). -/
def sortPair (a b : Str) : Str × Str := if strLt b a then (b, a) else (a, b)

/-- The human-readable clash description
`` `${sorted[0]} clashes with ${sorted[1]} on ${day} (${start}-${end})` ``,
built from the later-processed slot's own day and time range. -/
def conflictDescription (codeA codeB : Str) (slot : TimeSlot) : Str :=
  let sorted := sortPair codeA codeB
  sorted.1 ++ S (" clashes with ") ++ sorted.2 ++ S (" on ") ++ slot.day ++
    S (" (") ++ slot.start ++ S ("-") ++ slot.«end» ++ S (")")

/-- The body of the inner slot loop of `detectConflicts`: compare the
current slot against every earlier same-day entry, record keys and a
canonical description for each overlap, then push the slot. -/
def processSlot (course : Course) (st : ConflictState) (slot : TimeSlot) :
    ConflictState :=
  let daySlots := lookupDay st.slotMap slot.day
  let (keys, pairs) := daySlots.foldl
    (fun (acc : List Str × List Str) existing =>
      if slot.startMinutes < existing.slot.endMinutes ∧
          slot.endMinutes > existing.slot.startMinutes then
        (insertNew (insertNew acc.1 (slotKey course.course_code slot))
            (slotKey existing.course.course_code existing.slot),
         insertNew acc.2
            (conflictDescription course.course_code existing.course.course_code slot))
      else acc)
    (st.conflictKeys, st.conflictPairs)
  { slotMap := pushDay st.slotMap slot.day ⟨course, slot⟩
    conflictKeys := keys
    conflictPairs := pairs }

/-- The body of the outer course loop of `detectConflicts`; parsing the
course's schedules can throw. -/
def processCourse (st : ConflictState) (course : Course) : Option ConflictState := do
  let slots ← getAllTimeSlots course
  pure (slots.foldl (processSlot course) st)

/-- Function `detectConflicts` of `App.tsx` (the source returns only
`conflictKeys` and `conflictPairs`; the model keeps the slot map in the
result record as well). -/
def detectConflicts (courses : List Course) : Option ConflictState :=
  courses.foldlM processCourse ⟨[], [], []⟩

-- --- Time range (`getTimeRange` of `App.tsx`) ---

structure TimeRange where
  earliest : Int
  latest : Int
deriving DecidableEq, Repr

/-- Model of `Math.ceil(l / 60)` on integers. -/
def ceilDiv60 (l : Int) : Int := -((-l).fdiv 60)

/-- Fold one slot into the running `(earliest, latest)` bounds.  The
source initialises them to `Infinity` / `-Infinity` and always updates
both per slot, so `none` models the untouched pair. -/
def updateBounds (acc : Option (Int × Int)) (slot : TimeSlot) : Option (Int × Int) :=
  match acc with
  | none => some (slot.startMinutes, slot.endMinutes)
  | some (e, l) => some (min e slot.startMinutes, max l slot.endMinutes)

/-- The tail of `getTimeRange`: default the bounds to 08:00–18:00 when
no slot was seen (`earliest === Infinity`), snap outwards to whole
hours, and force at least a 60-minute span. -/
def finishRange (bounds : Option (Int × Int)) : TimeRange :=
  let e0 := (bounds.getD (480, 1080)).1
  let l0 := (bounds.getD (480, 1080)).2
  let earliest := 60 * (e0.fdiv 60)
  let latest := 60 * ceilDiv60 l0
  if latest ≤ earliest then ⟨earliest, earliest + 60⟩ else ⟨earliest, latest⟩

/-- Function `getTimeRange` of `App.tsx`: scan every slot of every course for the
extreme times, then snap and clamp. -/
def getTimeRange (courses : List Course) : Option TimeRange :=
  (courses.foldlM
      (fun acc course => (getAllTimeSlots course).map fun slots =>
        slots.foldl updateBounds acc)
      (none : Option (Int × Int))).map finishRange

example : timeToMinutes (S ("10:30")) = 630 := by decide
example : timeToMinutes (S ("")) = 0 := by decide
example : timeToMinutes (S ("10")) = 0 := by decide
example : formatTime 630 = S ("10:30") := by decide
example : formatTime 5 = S ("00:05") := by decide
example : parseDays (S ("TuTh")) = [S ("T"), S ("Th")] := by decide
example : parseDays (S ("MWF")) = [S ("M"), S ("W"), S ("F")] := by decide
example : parseSchedule (S ("Mon 10:00-09:00")) = some [] := by decide
example : parseSchedule (S ("nan")) = some [] := by decide
example : parseSchedule (S ("M 10:00")) = none := by decide
example :
    (parseSchedule (S ("MWF 08:00-09:00"))).map (·.map (·.day)) =
      some [S ("Mon"), S ("Wed"), S ("Fri")] := by decide

-- Concrete courses used by the witnesses below.

def demoCourseA : Course :=
  { branch := S ("CSE"), course_name := S ("DATA STRUCTURES"), course_code := S ("CS201")
    slot := S ("A1"), credits := 9, course_type := S ("DC"), instructor := S ("A")
    instructor_email := S ("a@iitk.ac.in"), lecture_schedule := S ("M 10:00-11:00")
    tutorial_schedule := S (""), practical_schedule := S ("") }

def demoCourseB : Course :=
  { branch := S ("PH"), course_name := S ("QUANTUM MECHANICS"), course_code := S ("PH401")
    slot := S ("B1"), credits := 9, course_type := S ("DC"), instructor := S ("B")
    instructor_email := S ("b@iitk.ac.in"), lecture_schedule := S ("M 10:30-11:30")
    tutorial_schedule := S (""), practical_schedule := S ("") }

/-- A course whose three schedule strings are empty or `"nan"`. -/
def demoCourseEmpty : Course :=
  { branch := S ("CSE"), course_name := S ("UGP"), course_code := S ("CS496")
    slot := S (""), credits := 9, course_type := S ("DC"), instructor := S ("C")
    instructor_email := S ("c@iitk.ac.in"), lecture_schedule := S ("")
    tutorial_schedule := S ("nan"), practical_schedule := S ("") }

/-- A single course whose lecture and practical overlap on Monday. -/
def demoCourseSelf : Course :=
  { branch := S ("EE"), course_name := S ("CONTROL SYSTEMS"), course_code := S ("EE250")
    slot := S ("C1"), credits := 11, course_type := S ("DC"), instructor := S ("D")
    instructor_email := S ("d@iitk.ac.in"), lecture_schedule := S ("M 10:00-12:00")
    tutorial_schedule := S (""), practical_schedule := S ("M 11:00-13:00") }

def demoSlotA : TimeSlot :=
  ⟨S ("Mon"), S ("10:00"), S ("11:00"), 600, 660, 60, some (S ("lecture"))⟩

def demoSlotB : TimeSlot :=
  ⟨S ("Mon"), S ("10:30"), S ("11:30"), 630, 690, 60, some (S ("lecture"))⟩

example : getAllTimeSlots demoCourseA = some [demoSlotA] := by decide
example : getAllTimeSlots demoCourseB = some [demoSlotB] := by decide
example : getAllTimeSlots demoCourseEmpty = some [] := by decide
example :
    (detectConflicts [demoCourseA, demoCourseB]).map ConflictState.conflictPairs =
      some [S ("CS201 clashes with PH401 on Mon (10:30-11:30)")] := by decide

-- --- Helper lemmas ---

theorem parseDays_mem (d : Str) :
    ∀ c ∈ parseDays d, c ∈ [S ("M"), S ("T"), S ("W"), S ("Th"), S ("F"), S ("S")] := by
  induction d using parseDays.induct with
  | case1 => simp [parseDays]
  | case2 rest ih =>
    intro c hc
    rw [parseDays] at hc
    rcases List.mem_cons.mp hc with rfl | hc
    · decide
    · exact ih c hc
  | case3 a rest hne hsome ih =>
    intro c hc
    rw [parseDays] at hc
    case x_1 => exact hne
    rw [if_pos hsome] at hc
    rcases List.mem_cons.mp hc with rfl | hc
    · unfold DAY_MAP at hsome
      split_ifs at hsome with h1 h2 h3 h4 h5 h6
      · simp [h1]
      · simp [h2]
      · simp [h3]
      · simp [h4]
      · simp [h5]
      · simp [h6]
      · simp at hsome
    · exact ih c hc
  | case4 a rest hne hnone ih =>
    intro c hc
    rw [parseDays] at hc
    case x_1 => exact hne
    rw [if_neg hnone] at hc
    exact ih c hc

/-- Every slot a segment emits satisfies any property that holds of the
record it builds from a recognised day code and a positive duration:
specialised below to positive duration and to the day name. -/
theorem parseSegment_sound (P : TimeSlot → Prop)
    (hP : ∀ (dayCode start en : Str) (sm em : Int), ¬ em - sm ≤ 0 →
      dayCode ∈ [S ("M"), S ("T"), S ("W"), S ("Th"), S ("F"), S ("S")] →
      P { day := (DAY_MAP dayCode).getD dayCode, start := start, «end» := en
          startMinutes := sm, endMinutes := em, durationMinutes := em - sm
          type := none }) :
    ∀ seg slots, parseSegment seg = some slots → ∀ t ∈ slots, P t := by
  intro seg slots h t ht
  unfold parseSegment at h
  split at h
  · split at h
    · exact absurd h (by simp)
    · simp only [] at h
      split at h
      · simp only [Option.some.injEq] at h
        subst h
        simp at ht
      · simp only [Option.some.injEq] at h
        subst h
        rcases List.mem_map.mp ht with ⟨code, hcode, rfl⟩
        exact hP code _ _ _ _ (by assumption) (parseDays_mem _ code hcode)
  · simp only [Option.some.injEq] at h
    subst h
    simp at ht

/-- Every slot `parseSchedule` emits over any accumulator satisfies the
per-segment property. -/
theorem parseFold_sound (P : TimeSlot → Prop)
    (hseg : ∀ seg slots, parseSegment seg = some slots → ∀ t ∈ slots, P t) :
    ∀ (segs : List Str) (acc res : List TimeSlot),
      (∀ t ∈ acc, P t) →
      List.foldlM (fun acc seg => (parseSegment seg).map (acc ++ ·)) acc segs =
        some res →
      ∀ t ∈ res, P t := by
  intro segs
  induction segs with
  | nil =>
    intro acc res hacc h
    simp only [List.foldlM_nil, Option.pure_def, Option.some.injEq] at h
    subst h
    exact hacc
  | cons sgm rest ih =>
    intro acc res hacc h
    rw [List.foldlM_cons] at h
    cases hs : parseSegment sgm with
    | none => rw [hs] at h; simp at h
    | some slots =>
      rw [hs] at h
      simp only [Option.map_some', Option.some_bind] at h
      refine ih (acc ++ slots) res ?_ h
      intro t ht
      rcases List.mem_append.mp ht with h1 | h2
      · exact hacc t h1
      · exact hseg sgm slots hs t h2

/-- Lift a per-segment slot property through `parseSchedule`. -/
theorem parseSchedule_sound (P : TimeSlot → Prop)
    (hP : ∀ (dayCode start en : Str) (sm em : Int), ¬ em - sm ≤ 0 →
      dayCode ∈ [S ("M"), S ("T"), S ("W"), S ("Th"), S ("F"), S ("S")] →
      P { day := (DAY_MAP dayCode).getD dayCode, start := start, «end» := en
          startMinutes := sm, endMinutes := em, durationMinutes := em - sm
          type := none }) :
    ∀ s slots, parseSchedule s = some slots → ∀ t ∈ slots, P t := by
  intro s slots h
  unfold parseSchedule at h
  split at h
  · simp only [Option.some.injEq] at h
    subst h
    simp
  · exact parseFold_sound P (parseSegment_sound P hP) _ [] slots (by simp) h

-- --- Claim theorems ---

/-- C1: for two time slots on the same day, `hasConflict` reports a
conflict exactly when the strict half-open overlap test
`slot1.startMinutes < slot2.endMinutes ∧ slot2.startMinutes < slot1.endMinutes`
holds; in particular slots that merely touch are never a conflict. -/
theorem hasConflict_iff_strict_overlap (slot1 slot2 : TimeSlot)
    (h : slot1.day = slot2.day) :
    hasConflict slot1 slot2 = true ↔
      slot1.startMinutes < slot2.endMinutes ∧
        slot2.startMinutes < slot1.endMinutes := by
  simp [hasConflict, h]

/-- Witness for C1 at the touching slots 10:00–11:00 and 11:00–12:00 on
Monday: the overlap test degenerates to `600 < 720 ∧ 660 < 660`, so the
instantiated equivalence shows they are not a conflict. -/
theorem hasConflict_iff_strict_overlap_witness :
    (hasConflict ⟨S ("Mon"), S ("10:00"), S ("11:00"), 600, 660, 60, none⟩
        ⟨S ("Mon"), S ("11:00"), S ("12:00"), 660, 720, 60, none⟩ = false) ∧
      (hasConflict ⟨S ("Mon"), S ("10:00"), S ("11:00"), 600, 660, 60, none⟩
          ⟨S ("Mon"), S ("11:00"), S ("12:00"), 660, 720, 60, none⟩ = true ↔
        (600 : Int) < 720 ∧ (660 : Int) < 660) :=
  ⟨by decide,
   hasConflict_iff_strict_overlap
     ⟨S ("Mon"), S ("10:00"), S ("11:00"), 600, 660, 60, none⟩
     ⟨S ("Mon"), S ("11:00"), S ("12:00"), 660, 720, 60, none⟩ rfl⟩

/-- C3: every slot `parseSchedule` emits has strictly positive duration
(segments with `duration <= 0` are discarded), and in particular
`"Mon 10:00-09:00"` parses to the empty slot list. -/
theorem parseSchedule_positive_duration :
    (∀ (s : Str) (slots : List TimeSlot), parseSchedule s = some slots →
        ∀ t ∈ slots, t.startMinutes < t.endMinutes) ∧
      parseSchedule (S ("Mon 10:00-09:00")) = some [] := by
  constructor
  · intro s slots h
    refine parseSchedule_sound (fun t => t.startMinutes < t.endMinutes)
      ?_ s slots h
    intro dayCode start en sm em hdur _
    simp only
    omega
  · decide

/-- Witness for C3: the single slot of `"M 10:00-11:00"` indeed has
`startMinutes < endMinutes` (600 < 660). -/
theorem parseSchedule_positive_duration_witness :
    (600 : Int) < 660 :=
  parseSchedule_positive_duration.1 (S ("M 10:00-11:00"))
    [⟨S ("Mon"), S ("10:00"), S ("11:00"), 600, 660, 60, none⟩] (by decide)
    ⟨S ("Mon"), S ("10:00"), S ("11:00"), 600, 660, 60, none⟩ (by decide)

/-- C5: `"TuTh 09:00-10:00"` parses to exactly one Tuesday slot followed
by one Thursday slot (greedy `Th` before single-letter `T`), and
`"MWF 08:00-09:00"` parses to exactly three slots on Monday, Wednesday
and Friday. -/
theorem parseSchedule_day_disambiguation :
    parseSchedule (S ("TuTh 09:00-10:00")) =
        some [⟨S ("Tue"), S ("09:00"), S ("10:00"), 540, 600, 60, none⟩,
              ⟨S ("Thu"), S ("09:00"), S ("10:00"), 540, 600, 60, none⟩] ∧
      parseSchedule (S ("MWF 08:00-09:00")) =
        some [⟨S ("Mon"), S ("08:00"), S ("09:00"), 480, 540, 60, none⟩,
              ⟨S ("Wed"), S ("08:00"), S ("09:00"), 480, 540, 60, none⟩,
              ⟨S ("Fri"), S ("08:00"), S ("09:00"), 480, 540, 60, none⟩] := by
  constructor <;> decide

/-- C6: the empty string, the literal `"nan"`, and whitespace-only
strings all parse to the empty slot list without an error. -/
theorem parseSchedule_empty_inputs (s : Str)
    (h : s = S ("nan") ∨ s.all jsWhitespace = true) :
    parseSchedule s = some [] := by
  rcases h with rfl | hws
  · decide
  · unfold parseSchedule
    rw [if_pos]
    refine Or.inr (Or.inr ?_)
    unfold trim
    have h1 : s.dropWhile jsWhitespace = [] := by
      rw [List.dropWhile_eq_nil_iff]
      intro x hx
      exact (List.all_eq_true.mp hws) x hx
    rw [h1]
    rfl

/-- Witness for C6 at the literal token `"nan"` (and closing the empty
and whitespace cases concretely as well). -/
theorem parseSchedule_empty_inputs_witness :
    parseSchedule (S ("nan")) = some [] ∧ parseSchedule (S ("")) = some [] ∧
      parseSchedule (S ("   ")) = some [] :=
  ⟨parseSchedule_empty_inputs (S ("nan")) (Or.inl rfl),
   parseSchedule_empty_inputs (S ("")) (Or.inr (by decide)),
   parseSchedule_empty_inputs (S ("   ")) (Or.inr (by decide))⟩

/-- C9 counterexample: a segment whose day token is the unrecognised
character `X` produces no slot at all — the unknown code is silently
discarded by `parseDays`, not passed through as a fallback label. -/
theorem parseSchedule_unknown_day_dropped :
    parseSchedule (S ("X 10:00-11:00")) = some [] := by decide

/-- C9 (amended): parsing skips unrecognised day characters instead of
throwing, so every emitted slot's day is one of the six known day names;
the `DAY_MAP[dayCode] || dayCode` fallback label never reaches a slot. -/
theorem parseSchedule_known_day_names :
    ∀ (s : Str) (slots : List TimeSlot), parseSchedule s = some slots →
      ∀ t ∈ slots,
        t.day ∈ [S ("Mon"), S ("Tue"), S ("Wed"), S ("Thu"), S ("Fri"), S ("Sat")] := by
  intro s slots h
  refine parseSchedule_sound
    (fun t => t.day ∈ [S ("Mon"), S ("Tue"), S ("Wed"), S ("Thu"), S ("Fri"), S ("Sat")])
    ?_ s slots h
  intro dayCode start en sm em _ hmem
  simp only [List.mem_cons, List.not_mem_nil, or_false] at hmem
  rcases hmem with rfl | rfl | rfl | rfl | rfl | rfl <;>
    · dsimp only
      decide

/-- Witness for C9 (amended): the Tuesday slot of `"TuTh 09:00-10:00"`
has one of the six known day names. -/
theorem parseSchedule_known_day_names_witness :
    (S ("Tue")) ∈ [S ("Mon"), S ("Tue"), S ("Wed"), S ("Thu"), S ("Fri"), S ("Sat")] :=
  parseSchedule_known_day_names (S ("TuTh 09:00-10:00"))
    [⟨S ("Tue"), S ("09:00"), S ("10:00"), 540, 600, 60, none⟩,
     ⟨S ("Thu"), S ("09:00"), S ("10:00"), 540, 600, 60, none⟩] (by decide)
    ⟨S ("Tue"), S ("09:00"), S ("10:00"), 540, 600, 60, none⟩ (by decide)

-- --- C7: slotless courses are unconstrained ---

theorem processCourse_no_slots (c : Course) (h : getAllTimeSlots c = some [])
    (st : ConflictState) : processCourse st c = some st := by
  simp [processCourse, h]

theorem foldlM_skip_no_slots (c : Course) (h : getAllTimeSlots c = some [])
    (cs2 : List Course) :
    ∀ (cs1 : List Course) (st : ConflictState),
      List.foldlM processCourse st (cs1 ++ c :: cs2) =
        List.foldlM processCourse st (cs1 ++ cs2) := by
  intro cs1 st
  rw [List.foldlM_append, List.foldlM_append]
  simp only [List.foldlM_cons]
  cases h1 : List.foldlM processCourse st cs1 with
  | none => simp
  | some s => simp [processCourse_no_slots c h s]

/-- C7: a course whose aggregated slot list is empty passes every
availability filter, and inserting it anywhere in the course list leaves
the conflict detector's result unchanged. -/
theorem empty_course_unconstrained (c : Course) (filters : List DayTimeFilter)
    (cs1 cs2 : List Course) (h : getAllTimeSlots c = some []) :
    isCourseWithinDayTimeFilters c filters = some true ∧
      detectConflicts (cs1 ++ c :: cs2) = detectConflicts (cs1 ++ cs2) := by
  constructor
  · unfold isCourseWithinDayTimeFilters
    split
    · rfl
    · simp [h]
  · unfold detectConflicts
    exact foldlM_skip_no_slots c h cs2 cs1 _

/-- Witness for C7: the all-empty/`"nan"` course `demoCourseEmpty`
passes a Monday 09:00–17:00 filter and adds no conflict next to
`demoCourseA`. -/
theorem empty_course_unconstrained_witness :
    isCourseWithinDayTimeFilters demoCourseEmpty [⟨1, S ("Mon"), 540, 1020⟩] =
        some true ∧
      detectConflicts [demoCourseA, demoCourseEmpty] =
        detectConflicts [demoCourseA] :=
  empty_course_unconstrained demoCourseEmpty [⟨1, S ("Mon"), 540, 1020⟩]
    [demoCourseA] [] (by decide)

-- --- C8: getTimeRange bounds ---

theorem finishRange_lt (b : Option (Int × Int)) :
    (finishRange b).earliest < (finishRange b).latest := by
  unfold finishRange
  simp only []
  split_ifs with h
  · simp only
    omega
  · simp only
    omega

theorem foldlM_bounds_no_slots :
    ∀ (courses : List Course), (∀ c ∈ courses, getAllTimeSlots c = some []) →
      ∀ acc : Option (Int × Int),
        List.foldlM
            (fun acc course => (getAllTimeSlots course).map fun slots =>
              slots.foldl updateBounds acc)
            acc courses = some acc := by
  intro courses
  induction courses with
  | nil => intro _ acc; simp
  | cons a t ih =>
    intro hall acc
    rw [List.foldlM_cons, hall a (List.mem_cons_self a t)]
    simp only [List.foldl_nil, Option.map_some', Option.some_bind]
    exact ih (fun c hc => hall c (List.mem_cons_of_mem a hc)) acc

/-- C8: `getTimeRange` always returns a span with `latest` strictly
greater than `earliest` (a minimum 60-minute span is forced on
collapse), and when no course contributes a slot it returns exactly
08:00–18:00 in minutes. -/
theorem getTimeRange_spec (courses : List Course) :
    (∀ r, getTimeRange courses = some r → r.earliest < r.latest) ∧
      ((∀ c ∈ courses, getAllTimeSlots c = some []) →
        getTimeRange courses = some ⟨480, 1080⟩) := by
  constructor
  · intro r hr
    unfold getTimeRange at hr
    rcases Option.map_eq_some'.mp hr with ⟨b, _, rfl⟩
    exact finishRange_lt b
  · intro hall
    unfold getTimeRange
    rw [foldlM_bounds_no_slots courses hall none]
    decide

/-- Witness for C8 at the empty course list: the default window is
exactly 480–1080 and is a valid span. -/
theorem getTimeRange_spec_witness :
    getTimeRange [] = some ⟨480, 1080⟩ ∧ (480 : Int) < 1080 :=
  ⟨(getTimeRange_spec []).2 (by simp),
   (getTimeRange_spec []).1 ⟨480, 1080⟩ ((getTimeRange_spec []).2 (by simp))⟩

-- --- C4: time formatting round-trip ---

set_option maxRecDepth 10000 in
set_option maxHeartbeats 4000000 in
theorem roundtrip_by_components : ∀ h : Nat, h < 24 → ∀ mi : Nat, mi < 60 →
    timeToMinutes (formatTime ((h : Int) * 60 + (mi : Int))) =
      (h : Int) * 60 + (mi : Int) := by decide

/-- C4: for every minute count `m` in `[0, 1439]`, formatting with
`formatTime` and parsing back with `timeToMinutes` returns `m`. -/
theorem timeToMinutes_formatTime_roundtrip (m : Nat) (h : m ≤ 1439) :
    timeToMinutes (formatTime (m : Int)) = (m : Int) := by
  have h1 : m / 60 < 24 := by omega
  have h2 : m % 60 < 60 := Nat.mod_lt m (by omega)
  have hrt := roundtrip_by_components (m / 60) h1 (m % 60) h2
  have hcast : ((m / 60 : Nat) : Int) * 60 + ((m % 60 : Nat) : Int) = (m : Int) := by
    omega
  rw [hcast] at hrt
  exact hrt

/-- Witness for C4 at `m = 630` (10:30). -/
theorem timeToMinutes_formatTime_roundtrip_witness :
    timeToMinutes (formatTime ((630 : Nat) : Int)) = ((630 : Nat) : Int) :=
  timeToMinutes_formatTime_roundtrip 630 (by decide)

-- --- C2: deduplicated conflict descriptions ---

/-- C2: for two courses with one overlapping same-day slot each,
`detectConflicts` emits exactly one canonical description (course codes
sorted lexicographically inside `conflictDescription`, formatted with
the later-processed slot's own time range), and the description set is a
singleton regardless of the input order. -/
theorem detectConflicts_pair_dedup
    (A B : Course) (sA sB : TimeSlot)
    (hA : getAllTimeSlots A = some [sA]) (hB : getAllTimeSlots B = some [sB])
    (hday : sA.day = sB.day)
    (h1 : sB.startMinutes < sA.endMinutes) (h2 : sA.startMinutes < sB.endMinutes) :
    (detectConflicts [A, B]).map ConflictState.conflictPairs =
        some [conflictDescription B.course_code A.course_code sB] ∧
      (detectConflicts [B, A]).map ConflictState.conflictPairs =
        some [conflictDescription A.course_code B.course_code sA] := by
  constructor
  · simp [detectConflicts, List.foldlM_cons, processCourse, hA, hB, processSlot,
      lookupDay, pushDay, insertNew, hday, h1, h2]
  · simp [detectConflicts, List.foldlM_cons, processCourse, hA, hB, processSlot,
      lookupDay, pushDay, insertNew, hday, h1, h2]

/-- Witness for C2: `demoCourseA` (CS201, Mon 10:00–11:00) and
`demoCourseB` (PH401, Mon 10:30–11:30) produce one description in
either order. -/
theorem detectConflicts_pair_dedup_witness :
    (detectConflicts [demoCourseA, demoCourseB]).map ConflictState.conflictPairs =
        some [conflictDescription demoCourseB.course_code demoCourseA.course_code
          demoSlotB] ∧
      (detectConflicts [demoCourseB, demoCourseA]).map ConflictState.conflictPairs =
        some [conflictDescription demoCourseA.course_code demoCourseB.course_code
          demoSlotA] :=
  detectConflicts_pair_dedup demoCourseA demoCourseB demoSlotA demoSlotB
    (by decide) (by decide) rfl (by decide) (by decide)

-- --- C10: self-conflicts of a single course ---

def demoSlotSelf1 : TimeSlot :=
  ⟨S ("Mon"), S ("10:00"), S ("12:00"), 600, 720, 120, some (S ("lecture"))⟩

def demoSlotSelf2 : TimeSlot :=
  ⟨S ("Mon"), S ("11:00"), S ("13:00"), 660, 780, 120, some (S ("practical"))⟩

/-- C10: `detectConflicts` does not exclude slot pairs of the same
course: a single course whose two own slots overlap on the same day
yields a self-referential description `X clashes with X …` and both of
the course's grid keys. -/
theorem detectConflicts_self_conflict (c : Course) (s1 s2 : TimeSlot)
    (h : getAllTimeSlots c = some [s1, s2]) (hday : s1.day = s2.day)
    (h1 : s2.startMinutes < s1.endMinutes) (h2 : s1.startMinutes < s2.endMinutes) :
    (detectConflicts [c]).map ConflictState.conflictPairs =
        some [conflictDescription c.course_code c.course_code s2] ∧
      (detectConflicts [c]).map ConflictState.conflictKeys =
        some (insertNew [slotKey c.course_code s2] (slotKey c.course_code s1)) := by
  constructor
  · simp [detectConflicts, List.foldlM_cons, processCourse, h, processSlot,
      lookupDay, pushDay, insertNew, hday, h1, h2]
  · simp [detectConflicts, List.foldlM_cons, processCourse, h, processSlot,
      lookupDay, pushDay, hday, h1, h2, insertNew]

/-- Witness for C10: `demoCourseSelf` (EE250, lecture Mon 10:00–12:00
and practical Mon 11:00–13:00) clashes with itself. -/
theorem detectConflicts_self_conflict_witness :
    (detectConflicts [demoCourseSelf]).map ConflictState.conflictPairs =
        some [conflictDescription demoCourseSelf.course_code
          demoCourseSelf.course_code demoSlotSelf2] ∧
      (detectConflicts [demoCourseSelf]).map ConflictState.conflictKeys =
        some (insertNew [slotKey demoCourseSelf.course_code demoSlotSelf2]
          (slotKey demoCourseSelf.course_code demoSlotSelf1)) :=
  detectConflicts_self_conflict demoCourseSelf demoSlotSelf1 demoSlotSelf2
    (by decide) rfl (by decide) (by decide)
